import Mathlib

/-!
Shallow embedding of `src/bot.py` (Dual-hedge-bot): a Gate.io dual-investment
hedging bot. Python floats are modelled as `ℚ` (every value the claims touch
is an exact decimal), machine ints as `ℤ`/`ℕ`, JSON dict `.get` access as
`Option` fields, and raised exceptions as `Except Err` / `Option`.

Rational arithmetic is written with the kernel-computable primitives
`mkRat` / `Rat.divInt`; bridge lemmas (`ratMul_eq_mul`, `ratDiv_eq_div`,
`ratFloor_eq_floor`) prove these agree with Mathlib's field operations, so the
definitions are exact real-number arithmetic and still evaluate by `decide`.
-/

deriving instance DecidableEq for Except

/-- Errors raised by the bot (Python `RuntimeError` / `ZeroDivisionError`). -/
inductive Err where
  | noEligibleOffer
  | contractNotFound
  | divisionByZero
  deriving DecidableEq

/-- A dual-investment plan as returned by `GET /earn/dual/investment_plan`.
Fields read with `dict.get` in `bot.py` are `Option`s (`none` = key absent). -/
structure Offer where
  id : Option String
  invest_currency : Option String
  exercise_currency : Option String
  type : Option String
  status : Option String
  delivery_time : Option ℤ
  exercise_price : Option String
  apy_display : Option String
  deriving DecidableEq

/-- Futures contract metadata from `GET /futures/{settle}/contracts`. -/
structure ContractInfo where
  name : Option String
  quanto_multiplier : Option String
  deriving DecidableEq

/-- Exact product of two rationals, via the kernel-computable `Rat.divInt`. -/
def ratMul (a b : ℚ) : ℚ := Rat.divInt (a.num * b.num) ((a.den : ℤ) * (b.den : ℤ))

/-- Exact quotient of two rationals (`ratDiv a 0 = 0`, as in Mathlib). -/
def ratDiv (a b : ℚ) : ℚ := Rat.divInt (a.num * (b.den : ℤ)) (b.num * (a.den : ℤ))

/-- Floor of a rational (numerator e-divided by denominator). -/
def ratFloor (q : ℚ) : ℤ := q.num / (q.den : ℤ)

theorem ratMul_eq_mul (a b : ℚ) : ratMul a b = a * b := by
  have had : ((a.den : ℚ)) ≠ 0 := Nat.cast_ne_zero.mpr a.den_nz
  have hbd : ((b.den : ℚ)) ≠ 0 := Nat.cast_ne_zero.mpr b.den_nz
  have hA : (a.num : ℚ) = a * (a.den : ℚ) := (div_eq_iff had).mp (Rat.num_div_den a)
  have hB : (b.num : ℚ) = b * (b.den : ℚ) := (div_eq_iff hbd).mp (Rat.num_div_den b)
  rw [ratMul, Rat.divInt_eq_div]
  push_cast
  rw [hA, hB, div_eq_iff (mul_ne_zero had hbd)]
  ring

theorem ratDiv_eq_div (a b : ℚ) : ratDiv a b = a / b := by
  by_cases hb : b = 0
  · subst hb
    simp [ratDiv]
  · have had : ((a.den : ℚ)) ≠ 0 := Nat.cast_ne_zero.mpr a.den_nz
    have hbd : ((b.den : ℚ)) ≠ 0 := Nat.cast_ne_zero.mpr b.den_nz
    have hbn : (b.num : ℚ) ≠ 0 := Int.cast_ne_zero.mpr (Rat.num_ne_zero.mpr hb)
    have hA : (a.num : ℚ) = a * (a.den : ℚ) := (div_eq_iff had).mp (Rat.num_div_den a)
    have hB : (b.num : ℚ) = b * (b.den : ℚ) := (div_eq_iff hbd).mp (Rat.num_div_den b)
    rw [ratDiv, Rat.divInt_eq_div]
    push_cast
    rw [div_eq_div_iff (mul_ne_zero hbn had) hb, hA, hB]
    ring

theorem ratFloor_eq_floor (q : ℚ) : ratFloor q = ⌊q⌋ := (Rat.floor_def).symm

/-- Model of Python 3 `round` (round-half-to-even) on an exact rational. -/
def roundHalfEven (q : ℚ) : ℤ :=
  let f : ℤ := ratFloor q
  let rem : ℤ := q.num - f * (q.den : ℤ)
  if 2 * rem < (q.den : ℤ) then f
  else if (q.den : ℤ) < 2 * rem then f + 1
  else if f % 2 = 0 then f else f + 1

def isDigits (l : List Char) : Bool := l.all (fun c => c.isDigit)

def digitsVal (l : List Char) : ℕ := l.foldl (fun a c => 10 * a + (c.toNat - 48)) 0

/-- Parse an unsigned decimal literal (`"9"`, `"9.2"`, `".5"`, `"1."`),
the plain-decimal fragment of Python `float()` string parsing. -/
def parseUnsignedDecimal (cs : List Char) : Option ℚ :=
  let intPart := cs.takeWhile (fun c => c != '.')
  match cs.dropWhile (fun c => c != '.') with
  | [] =>
    if intPart.isEmpty || !(isDigits intPart) then none
    else some (mkRat (digitsVal intPart : ℤ) 1)
  | _ :: frac =>
    if (intPart.isEmpty && frac.isEmpty) || !(isDigits intPart) || !(isDigits frac) then none
    else some (mkRat ((digitsVal intPart * 10 ^ frac.length + digitsVal frac : ℕ) : ℤ)
      (10 ^ frac.length))

/-- Model of Python `float(s)` on decimal strings: `none` models a
`ValueError` on a malformed string. -/
def parseDecimal (s : String) : Option ℚ :=
  match s.toList with
  | [] => none
  | '-' :: rest => (parseUnsignedDecimal rest).map (fun q => -q)
  | '+' :: rest => parseUnsignedDecimal rest
  | cs => parseUnsignedDecimal cs

/-- `one_day_sec` from `find_best_eth_dual_one_day` (bot.py 104). -/
def one_day_sec : ℤ := 24 * 60 * 60

/-- The annualized yield the bot attaches to a plan (bot.py 122-126):
`float(p.get("apy_display", "0"))` with a `ValueError` degraded to `0.0`. -/
def apyOf (p : Offer) : ℚ := (parseDecimal ((p.apy_display).getD "0")).getD 0

/-- The filtering predicate of `find_best_eth_dual_one_day` (bot.py 108-120):
currency/kind/status checks plus the delivery-time window
`0.5 * one_day_sec <= delivery - now <= 2.0 * one_day_sec`.  The bounds
`0.5 * 86400 = 43200` and `2.0 * 86400 = 172800` are exact, so the Python
float comparison on the integer `delivery - now` is this integer comparison. -/
def eligible (now : ℤ) (p : Offer) : Bool :=
  decide (p.invest_currency = some "USDT") &&
  decide (p.exercise_currency = some "ETH") &&
  decide (p.type = some "put") &&
  decide (p.status = some "ONGOING") &&
  decide (one_day_sec / 2 ≤ p.delivery_time.getD 0 - now) &&
  decide (p.delivery_time.getD 0 - now ≤ 2 * one_day_sec)

/-- Python `max(candidates, key=...)` keeps the first element whose key is
maximal: a later element replaces the running best only when strictly
greater. -/
def maxByApyAux (best : Offer) : List Offer → Offer
  | [] => best
  | p :: ps => maxByApyAux (if apyOf best < apyOf p then p else best) ps

def maxByApy : List Offer → Option Offer
  | [] => none
  | p :: ps => some (maxByApyAux p ps)

/-- `find_best_eth_dual_one_day` (bot.py 91-133), with the already-fetched
plan list and the current time passed in: filter, raise if no candidate is
left, else return the candidate with maximal parsed `apy_display`. -/
def find_best_eth_dual_one_day (plans : List Offer) (now : ℤ) : Except Err Offer :=
  match maxByApy (plans.filter (eligible now)) with
  | none => .error .noEligibleOffer
  | some best => .ok best

/-- Modelled from the spec's words (§4.1): "time-to-delivery (delivery
timestamp minus current time) lies in a half-open window of [0.5, 2.0] days",
read as the half-open interval `[0.5d, 2.0d)`.  Kept separate from
`eligible`, which embeds the source's closed-interval test. -/
def specHalfOpenWindow (now : ℤ) (p : Offer) : Prop :=
  one_day_sec / 2 ≤ p.delivery_time.getD 0 - now ∧
  p.delivery_time.getD 0 - now < 2 * one_day_sec

instance (now : ℤ) (p : Offer) : Decidable (specHalfOpenWindow now p) := by
  unfold specHalfOpenWindow; infer_instance

/-- The effective lot multiplier of `calc_contract_size_from_usdt`
(bot.py 186-192): `1.0` by default, the parsed `quanto_multiplier` when the
field is present and parses, and back to `1.0` on a `ValueError`. -/
def effMultiplier (ci : ContractInfo) : ℚ :=
  match ci.quanto_multiplier with
  | none => 1
  | some s => (parseDecimal s).getD 1

/-- `calc_contract_size_from_usdt` (bot.py 177-197):
`size = int(round(notional_usdt / multiplier)); if size == 0: size = 1`.
The division raises `ZeroDivisionError` when the multiplier is zero, modelled
by the `.error` branch; `mark_price` is accepted and never used, as in the
source. -/
def calc_contract_size_from_usdt (notional_usdt : ℚ) (contract_info : ContractInfo)
    (mark_price : ℚ) : Except Err ℤ :=
  let multiplier := effMultiplier contract_info
  if multiplier = 0 then .error .divisionByZero
  else
    let size := roundHalfEven (ratDiv notional_usdt multiplier)
    .ok (if size = 0 then 1 else size)

/-- `calc_hedge_size_usdt` (bot.py 169-174): plain multiplication; the
`exercise_price` argument is unused, as in the source. -/
def calc_hedge_size_usdt (amount_dual_usdt : ℚ) (hedge_multiplier : ℚ)
    (exercise_price : ℚ) : ℚ :=
  ratMul amount_dual_usdt hedge_multiplier

/-- Body of `POST /earn/dual/orders` built by `place_dual_order`
(bot.py 142-146).  The source serializes `amount` with `str`; the numeric
value is kept here. -/
structure DualOrderBody where
  plan_id : String
  amount : ℚ
  text : String
  deriving DecidableEq

/-- `place_dual_order` (bot.py 136-149): builds the order body;
`none` models the `KeyError` when the plan has no `id`. -/
def place_dual_order (plan : Offer) (amount_usdt : ℚ) (custom_text : String) :
    Option DualOrderBody :=
  plan.id.map (fun i => { plan_id := i, amount := amount_usdt, text := custom_text })

/-- Body of `POST /futures/{settle}/orders` built by `open_futures_short`
(bot.py 205-213). -/
structure FuturesOrderBody where
  contract : String
  size : ℤ
  iceberg : ℕ
  tif : String
  text : String
  reduce_only : Bool
  deriving DecidableEq

/-- `open_futures_short` (bot.py 200-216): posts `size = -abs(int(size))`
with `tif = "ioc"`. -/
def open_futures_short (contract : String) (size : ℤ) (reduce_only : Bool) :
    FuturesOrderBody :=
  { contract := contract, size := -(size.natAbs : ℤ), iceberg := 0, tif := "ioc",
    text := "dual-hedge-short", reduce_only := reduce_only }

/-- `get_futures_contract` (bot.py 161-166): first metadata entry whose
`name` equals the wanted contract, else a `RuntimeError`. -/
def get_futures_contract (contracts : List ContractInfo) (contract : String) :
    Except Err ContractInfo :=
  match contracts.find? (fun c => decide (c.name = some contract)) with
  | some c => .ok c
  | none => .error .contractNotFound

/-- The correlation tag generated in `main` (bot.py 293):
`f"dual-hedge-{int(time.time())}"` — it depends only on the whole second at
which the run reaches the submission step. -/
def genTag (t : ℤ) : String := "dual-hedge-" ++ toString t

/-- An investment order record from `GET /earn/dual/orders`. -/
structure DualOrderRecord where
  text : Option String
  status : Option String
  deriving DecidableEq

/-- `wait_for_dual_settlement` (bot.py 230-250) run against a scripted list
of successive remote responses (one list of order records per poll).  Returns
the matching record together with the number of polls issued; `none` means
the script ran out with the loop still polling (the real loop would keep
going forever). -/
def wait_for_dual_settlement (order_text : String) :
    List (List DualOrderRecord) → Option (DualOrderRecord × ℕ)
  | [] => none
  | orders :: rest =>
    match orders.find? (fun o => decide (o.text = some order_text)) with
    | none => (wait_for_dual_settlement order_text rest).map (fun r => (r.1, r.2 + 1))
    | some target =>
      if target.status = some "SETTLEMENT_SUCCESS" then some (target, 1)
      else (wait_for_dual_settlement order_text rest).map (fun r => (r.1, r.2 + 1))

/-- The two remote order submissions `main` can make. -/
inductive Event where
  | investOrder (body : DualOrderBody)
  | hedgeOrder (body : FuturesOrderBody)
  deriving DecidableEq

/-- The submission trace of one run of `main` (bot.py 253-303), from the
point where the amount has been read.  Every failure the source would raise
(no eligible plan, malformed `exercise_price` / `apy_display` / ticker price,
missing `delivery_time` or plan `id`, unknown contract, zero multiplier)
aborts the run before any order is submitted; declining the confirmation
prompt likewise submits nothing.  `dualPostOk = false` models the dual-order
POST raising after being issued, so the run dies between the two orders. -/
def mainRun (plans : List Offer) (now : ℤ) (amount_usdt : ℚ) (hedge_multiplier : ℚ)
    (contracts : List ContractInfo) (futContract : String) (tickerLast : String)
    (confirm : Bool) (t_submit : ℤ) (dualPostOk : Bool) : List Event :=
  match find_best_eth_dual_one_day plans now with
  | .error _ => []
  | .ok plan =>
    match plan.exercise_price.bind (fun s => parseDecimal s) with
    | none => []
    | some exercise_price' =>
    match parseDecimal ((plan.apy_display).getD "0") with
    | none => []
    | some _apy =>
    match plan.delivery_time with
    | none => []
    | some _delivery_ts =>
    let hedge_notional := calc_hedge_size_usdt amount_usdt hedge_multiplier exercise_price'
    match get_futures_contract contracts futContract with
    | .error _ => []
    | .ok contract_info =>
    match parseDecimal tickerLast with
    | none => []
    | some mark_price =>
    match calc_contract_size_from_usdt hedge_notional contract_info mark_price with
    | .error _ => []
    | .ok contract_size =>
    if !confirm then []
    else
      match place_dual_order plan amount_usdt (genTag t_submit) with
      | none => []
      | some dualBody =>
        Event.investOrder dualBody ::
          (if dualPostOk then
            [Event.hedgeOrder (open_futures_short futContract contract_size false)]
          else [])

example : parseDecimal "9.2" = some (mkRat 46 5) := by decide
example : parseDecimal "8.5" = some (mkRat 17 2) := by decide
example : parseDecimal "abc" = none := by decide
example : parseDecimal "-0.5" = some (-(mkRat 1 2)) := by decide
example : parseDecimal "10.0" = some 10 := by decide
example : roundHalfEven (mkRat 1 2) = 0 := by decide
example : roundHalfEven (mkRat 3 2) = 2 := by decide
example : roundHalfEven (mkRat 5 2) = 2 := by decide
example : roundHalfEven (mkRat 2 5) = 0 := by decide
example : roundHalfEven (-(mkRat 1 2)) = 0 := by decide
example : roundHalfEven (-(mkRat 3 2)) = -2 := by decide
example : genTag 1700000000 = "dual-hedge-1700000000" := by decide

/-! ### Helper lemmas about the offer selector -/

theorem maxByApyAux_mem (best : Offer) (l : List Offer) :
    maxByApyAux best l = best ∨ maxByApyAux best l ∈ l := by
  induction l generalizing best with
  | nil => exact Or.inl rfl
  | cons p ps ih =>
    rw [maxByApyAux]
    by_cases h : apyOf best < apyOf p
    · rw [if_pos h]
      rcases ih p with h1 | h1
      · exact Or.inr (by rw [h1]; exact List.mem_cons_self p ps)
      · exact Or.inr (List.mem_cons_of_mem p h1)
    · rw [if_neg h]
      rcases ih best with h1 | h1
      · exact Or.inl h1
      · exact Or.inr (List.mem_cons_of_mem p h1)

theorem maxByApyAux_le (best : Offer) (l : List Offer) :
    apyOf best ≤ apyOf (maxByApyAux best l) ∧
      ∀ p ∈ l, apyOf p ≤ apyOf (maxByApyAux best l) := by
  induction l generalizing best with
  | nil => exact ⟨le_refl _, by simp⟩
  | cons p ps ih =>
    rw [maxByApyAux]
    by_cases h : apyOf best < apyOf p
    · rw [if_pos h]
      obtain ⟨h1, h2⟩ := ih p
      refine ⟨le_trans (le_of_lt h) h1, ?_⟩
      intro q hq
      rcases List.mem_cons.mp hq with rfl | hq
      · exact h1
      · exact h2 q hq
    · rw [if_neg h]
      obtain ⟨h1, h2⟩ := ih best
      refine ⟨h1, ?_⟩
      intro q hq
      rcases List.mem_cons.mp hq with rfl | hq
      · exact le_trans (not_lt.mp h) h1
      · exact h2 q hq

theorem maxByApy_eq_some (l : List Offer) (o : Offer) (h : maxByApy l = some o) :
    o ∈ l ∧ ∀ p ∈ l, apyOf p ≤ apyOf o := by
  cases l with
  | nil => simp [maxByApy] at h
  | cons p ps =>
    rw [maxByApy] at h
    injection h with h
    subst h
    constructor
    · rcases maxByApyAux_mem p ps with h1 | h1
      · rw [h1]; exact List.mem_cons_self p ps
      · exact List.mem_cons_of_mem p h1
    · intro q hq
      obtain ⟨h1, h2⟩ := maxByApyAux_le p ps
      rcases List.mem_cons.mp hq with rfl | hq
      · exact h1
      · exact h2 q hq

theorem find_best_ok (plans : List Offer) (now : ℤ) (o : Offer)
    (h : find_best_eth_dual_one_day plans now = .ok o) :
    o ∈ plans.filter (eligible now) ∧
      ∀ p ∈ plans.filter (eligible now), apyOf p ≤ apyOf o := by
  unfold find_best_eth_dual_one_day at h
  split at h
  · exact absurd h (by simp)
  · next b hm =>
      injection h with h
      subst h
      exact maxByApy_eq_some _ _ hm

theorem eligible_iff (now : ℤ) (p : Offer) :
    eligible now p = true ↔
      (p.invest_currency = some "USDT" ∧ p.exercise_currency = some "ETH" ∧
       p.type = some "put" ∧ p.status = some "ONGOING" ∧
       43200 ≤ p.delivery_time.getD 0 - now ∧ p.delivery_time.getD 0 - now ≤ 172800) := by
  simp only [eligible, one_day_sec, Bool.and_eq_true, decide_eq_true_eq, and_assoc]
  norm_num

/-! ### Concrete fixtures -/

/-- An eligible offer expiring in 23 hours (the end-to-end scenario). -/
def offerA : Offer :=
  ⟨some "p1", some "USDT", some "ETH", some "put", some "ONGOING", some 82800,
    some "2000", some "9"⟩

/-- An eligible offer expiring exactly 2.0 days from `now = 0`. -/
def offerTwoDay : Offer :=
  ⟨some "p2", some "USDT", some "ETH", some "put", some "ONGOING", some 172800,
    some "2000", some "9"⟩

/-- An eligible offer expiring exactly 0.5 days from `now = 0`. -/
def offerHalfDay : Offer :=
  ⟨some "p3", some "USDT", some "ETH", some "put", some "ONGOING", some 43200,
    some "2000", some "9"⟩

/-- An eligible offer advertising an 8.5% yield. -/
def offerB85 : Offer :=
  ⟨some "p85", some "USDT", some "ETH", some "put", some "ONGOING", some 86400,
    some "2000", some "8.5"⟩

/-- An eligible offer advertising a 9.2% yield. -/
def offerB92 : Offer :=
  ⟨some "p92", some "USDT", some "ETH", some "put", some "ONGOING", some 86400,
    some "2000", some "9.2"⟩

/-- An eligible offer whose yield field is not numeric. -/
def offerBadYield : Offer :=
  ⟨some "pbad", some "USDT", some "ETH", some "put", some "ONGOING", some 86400,
    some "2000", some "oops"⟩

/-! ### C1 -/

/-- C1 (counterexample): an offer expiring exactly 2.0 days out is returned by
`find_best_eth_dual_one_day` even though it violates the half-open window
`[0.5d, 2.0d)` of the claim; likewise the 0.5-day boundary is included, so
the `(0.5d, 2.0d]` reading fails as well.  Both window bounds are closed in
the code. -/
theorem selector_halfopen_counterexample :
    (find_best_eth_dual_one_day [offerTwoDay] 0 = .ok offerTwoDay ∧
      ¬ specHalfOpenWindow 0 offerTwoDay) ∧
    (find_best_eth_dual_one_day [offerHalfDay] 0 = .ok offerHalfDay ∧
      offerHalfDay.delivery_time.getD 0 - 0 = one_day_sec / 2) := by
  refine ⟨⟨by decide, by decide⟩, by decide, by decide⟩

/-- C1 (amended): every offer returned by the selector satisfies all filter
predicates — funding-asset investment currency, hedge-asset exercise
currency, the downside ("put") kind, "ONGOING" status — and its
time-to-delivery lies in the closed window `[0.5, 2.0]` days
(`43200 ≤ delivery − now ≤ 172800`, both endpoints included). -/
theorem selector_filter_sound (plans : List Offer) (now : ℤ) (o : Offer)
    (h : find_best_eth_dual_one_day plans now = .ok o) :
    o.invest_currency = some "USDT" ∧ o.exercise_currency = some "ETH" ∧
    o.type = some "put" ∧ o.status = some "ONGOING" ∧
    43200 ≤ o.delivery_time.getD 0 - now ∧ o.delivery_time.getD 0 - now ≤ 172800 := by
  have hm := (find_best_ok plans now o h).1
  exact (eligible_iff now o).mp (List.mem_filter.mp hm).2

/-- Witness for `selector_filter_sound` at a concrete run. -/
theorem selector_filter_sound_witness :
    offerA.invest_currency = some "USDT" ∧ offerA.exercise_currency = some "ETH" ∧
    offerA.type = some "put" ∧ offerA.status = some "ONGOING" ∧
    43200 ≤ offerA.delivery_time.getD 0 - 0 ∧ offerA.delivery_time.getD 0 - 0 ≤ 172800 :=
  selector_filter_sound [offerA] 0 offerA (by decide)

/-! ### C2 -/

/-- C2: whenever some offer is eligible, the selector returns an eligible
offer whose parsed yield is maximal among all eligible offers; a malformed
or missing yield parses as 0 and does not affect eligibility; and between
eligible offers at 8.5% and 9.2% the 9.2% one is returned. -/
theorem selector_ranking (plans : List Offer) (now : ℤ) :
    ((∃ p ∈ plans, eligible now p = true) →
      ∃ b, find_best_eth_dual_one_day plans now = .ok b ∧ eligible now b = true ∧
        ∀ p ∈ plans, eligible now p = true → apyOf p ≤ apyOf b) ∧
    (∀ p : Offer, parseDecimal ((p.apy_display).getD "0") = none → apyOf p = 0) ∧
    (∀ p : Offer, ∀ a1 a2 : Option String,
      eligible now { p with apy_display := a1 } = eligible now { p with apy_display := a2 }) ∧
    find_best_eth_dual_one_day [offerB85, offerB92] 0 = .ok offerB92 ∧
    find_best_eth_dual_one_day [offerB92, offerBadYield] 0 = .ok offerB92 ∧
    eligible 0 offerBadYield = true ∧ apyOf offerBadYield = 0 := by
  refine ⟨?_, ?_, ?_, by decide, by decide, by decide, by decide⟩
  · rintro ⟨q, hq, hqe⟩
    have hqf : q ∈ plans.filter (eligible now) := List.mem_filter.mpr ⟨hq, hqe⟩
    cases hf : plans.filter (eligible now) with
    | nil => rw [hf] at hqf; simp at hqf
    | cons r rs =>
      refine ⟨maxByApyAux r rs, ?_, ?_, ?_⟩
      · rw [find_best_eth_dual_one_day, hf, maxByApy]
      · have hmem : maxByApyAux r rs ∈ plans.filter (eligible now) := by
          rw [hf]
          rcases maxByApyAux_mem r rs with h1 | h1
          · rw [h1]; exact List.mem_cons_self r rs
          · exact List.mem_cons_of_mem r h1
        exact (List.mem_filter.mp hmem).2
      · intro p hp hpe
        have hpf : p ∈ plans.filter (eligible now) := List.mem_filter.mpr ⟨hp, hpe⟩
        rw [hf] at hpf
        obtain ⟨h1, h2⟩ := maxByApyAux_le r rs
        rcases List.mem_cons.mp hpf with rfl | hpf
        · exact h1
        · exact h2 p hpf
  · intro p h
    rw [apyOf, h]
    rfl
  · intro p a1 a2
    rfl

/-- Witness for `selector_ranking` at a concrete run. -/
theorem selector_ranking_witness :
    ∃ b, find_best_eth_dual_one_day [offerB85, offerB92] 0 = .ok b ∧
      eligible 0 b = true ∧
      ∀ p ∈ [offerB85, offerB92], eligible 0 p = true → apyOf p ≤ apyOf b :=
  (selector_ranking [offerB85, offerB92] 0).1 ⟨offerB92, by decide, by decide⟩

/-! ### C6 -/

/-- C6: the selector fails with the no-eligible-offer error exactly when no
offer passes the filter, and returns an offer whenever one does. -/
theorem selector_error_iff (plans : List Offer) (now : ℤ) :
    (find_best_eth_dual_one_day plans now = .error .noEligibleOffer ↔
      ∀ p ∈ plans, eligible now p = false) ∧
    ((∃ p ∈ plans, eligible now p = true) →
      ∃ o, find_best_eth_dual_one_day plans now = .ok o) := by
  constructor
  · constructor
    · intro h
      cases hf : plans.filter (eligible now) with
      | nil =>
        intro p hp
        have := (List.filter_eq_nil_iff.mp hf) p hp
        exact Bool.not_eq_true _ ▸ (by simpa using this)
      | cons r rs =>
        rw [find_best_eth_dual_one_day, hf, maxByApy] at h
        exact absurd h (by simp)
    · intro h
      have hf : plans.filter (eligible now) = [] :=
        List.filter_eq_nil_iff.mpr (fun p hp => by rw [h p hp]; exact Bool.false_ne_true)
      rw [find_best_eth_dual_one_day, hf, maxByApy]
  · rintro ⟨q, hq, hqe⟩
    have hqf : q ∈ plans.filter (eligible now) := List.mem_filter.mpr ⟨hq, hqe⟩
    cases hf : plans.filter (eligible now) with
    | nil => rw [hf] at hqf; simp at hqf
    | cons r rs =>
      exact ⟨maxByApyAux r rs, by rw [find_best_eth_dual_one_day, hf, maxByApy]⟩

/-- Witness for `selector_error_iff` at concrete runs: the empty offer list
fails with the no-eligible-offer error, and a list with an eligible offer
succeeds. -/
theorem selector_error_iff_witness :
    find_best_eth_dual_one_day [] 5 = .error .noEligibleOffer ∧
    ∃ o, find_best_eth_dual_one_day [offerA] 0 = .ok o :=
  ⟨(selector_error_iff [] 5).1.mpr (by simp),
    (selector_error_iff [offerA] 0).2 ⟨offerA, by decide, by decide⟩⟩

/-! ### Contract sizing -/

/-- Contract metadata with no `quanto_multiplier` field. -/
def metaNone : ContractInfo := ⟨some "ETH_USDT", none⟩

/-- Contract metadata with multiplier `1.0`. -/
def metaOne : ContractInfo := ⟨some "ETH_USDT", some "1.0"⟩

/-- Contract metadata with multiplier `10.0`. -/
def metaTen : ContractInfo := ⟨some "ETH_USDT", some "10.0"⟩

theorem roundHalfEven_nonneg (q : ℚ) (h : 0 ≤ q) : 0 ≤ roundHalfEven q := by
  have hn : 0 ≤ q.num := Rat.num_nonneg.mpr h
  have hf : 0 ≤ ratFloor q := Int.ediv_nonneg hn (Int.natCast_nonneg _)
  simp only [roundHalfEven]
  split
  · exact hf
  · split
    · omega
    · split
      · exact hf
      · omega

/-! ### C3 -/

/-- C3 (counterexample): for the negative notional `-5` (multiplier field
absent, hence lot multiplier 1) the function returns `-5`, a negative size,
so the result is not always a non-negative integer. -/
theorem contract_size_negative_counterexample :
    calc_contract_size_from_usdt (-5) metaNone 7 = .ok (-5) ∧ (-5 : ℤ) < 0 := by
  exact ⟨by decide, by decide⟩

/-- C3 (amended): with a nonzero lot multiplier the size is
`round(notional / lotMultiplier)` (Python half-to-even rounding) clamped from
0 to 1; the multiplier defaults to 1 when the metadata field is absent and
falls back to 1 when it is malformed; for `notional ≥ 0` and a positive
multiplier the result is a positive (hence non-negative) integer; and
`contractSize(1000, {multiplier 1.0}, any) = 1000`,
`contractSize(0.4, {multiplier 1.0}, any) = 1`,
`contractSize(250, {multiplier 10.0}, any) = 25`. -/
theorem contract_size_spec :
    (∀ (n : ℚ) (ci : ContractInfo) (mark : ℚ), effMultiplier ci ≠ 0 →
      calc_contract_size_from_usdt n ci mark =
        .ok (if roundHalfEven (n / effMultiplier ci) = 0 then 1
          else roundHalfEven (n / effMultiplier ci))) ∧
    (∀ ci : ContractInfo, ci.quanto_multiplier = none → effMultiplier ci = 1) ∧
    (∀ (ci : ContractInfo) (s : String), ci.quanto_multiplier = some s →
      parseDecimal s = none → effMultiplier ci = 1) ∧
    (∀ (n : ℚ) (ci : ContractInfo) (mark : ℚ) (z : ℤ), 0 ≤ n → 0 < effMultiplier ci →
      calc_contract_size_from_usdt n ci mark = .ok z → 1 ≤ z) ∧
    (∀ mark : ℚ, calc_contract_size_from_usdt 1000 metaOne mark = .ok 1000 ∧
      calc_contract_size_from_usdt (mkRat 2 5) metaOne mark = .ok 1 ∧
      calc_contract_size_from_usdt 250 metaTen mark = .ok 25) := by
  refine ⟨?_, ?_, ?_, ?_, ?_⟩
  · intro n ci mark hm
    simp only [calc_contract_size_from_usdt, if_neg hm, ratDiv_eq_div]
  · intro ci h
    simp [effMultiplier, h]
  · intro ci s h hp
    simp [effMultiplier, h, hp]
  · intro n ci mark z hn hm hz
    have hm0 : effMultiplier ci ≠ 0 := ne_of_gt hm
    simp only [calc_contract_size_from_usdt, if_neg hm0, Except.ok.injEq] at hz
    have hs : 0 ≤ roundHalfEven (ratDiv n (effMultiplier ci)) := by
      refine roundHalfEven_nonneg _ ?_
      rw [ratDiv_eq_div]
      exact div_nonneg hn (le_of_lt hm)
    by_cases h0 : roundHalfEven (ratDiv n (effMultiplier ci)) = 0
    · rw [if_pos h0] at hz
      omega
    · rw [if_neg h0] at hz
      omega
  · intro mark
    exact ⟨rfl, rfl, rfl⟩

/-- Witness for `contract_size_spec` at concrete inputs. -/
theorem contract_size_spec_witness :
    calc_contract_size_from_usdt 250 metaTen 3 =
      .ok (if roundHalfEven ((250 : ℚ) / effMultiplier metaTen) = 0 then 1
        else roundHalfEven ((250 : ℚ) / effMultiplier metaTen)) ∧
    effMultiplier metaNone = 1 ∧
    (1 : ℤ) ≤ 25 :=
  ⟨contract_size_spec.1 250 metaTen 3 (by decide),
    contract_size_spec.2.1 metaNone rfl,
    contract_size_spec.2.2.2.1 250 metaTen 3 25 (by norm_num) (by decide)
      ((contract_size_spec.2.2.2.2 3).2.2)⟩

/-! ### C9 -/

/-- C9: the mark-price argument has no influence on the computed contract
size: for any two mark prices the result is identical. -/
theorem contract_size_ignores_mark_price (n : ℚ) (ci : ContractInfo) (p1 p2 : ℚ) :
    calc_contract_size_from_usdt n ci p1 = calc_contract_size_from_usdt n ci p2 := rfl

/-! ### C10 -/

/-- C10: the division in `calc_contract_size_from_usdt` is unguarded: any
metadata whose multiplier field parses to `0` (e.g. the string `"0"`) makes
the function raise a division-by-zero error for every notional and mark
price; when the parsed multiplier is nonzero the error branch is unreachable
and the function returns a size. -/
theorem contract_size_div_by_zero :
    (∀ (nm : Option String) (n mark : ℚ),
      calc_contract_size_from_usdt n ⟨nm, some "0"⟩ mark = .error .divisionByZero) ∧
    (∀ (n : ℚ) (ci : ContractInfo) (mark : ℚ), effMultiplier ci ≠ 0 →
      ∃ z : ℤ, calc_contract_size_from_usdt n ci mark = .ok z) := by
  constructor
  · intro nm n mark
    rfl
  · intro n ci mark hm
    simp only [calc_contract_size_from_usdt, if_neg hm]
    exact ⟨_, rfl⟩

/-- Witness for `contract_size_div_by_zero` at concrete inputs. -/
theorem contract_size_div_by_zero_witness :
    calc_contract_size_from_usdt 5 ⟨some "ETH_USDT", some "0"⟩ 2 =
      .error .divisionByZero ∧
    ∃ z : ℤ, calc_contract_size_from_usdt 5 metaNone 2 = .ok z :=
  ⟨contract_size_div_by_zero.1 (some "ETH_USDT") 5 2,
    contract_size_div_by_zero.2 5 metaNone 2 (by decide)⟩

/-! ### C4 -/

/-- An order record carrying another run's tag. -/
def recOther : DualOrderRecord := ⟨some "other", some "ONGOING"⟩

/-- Our order, still pending. -/
def recPending : DualOrderRecord := ⟨some "dual-hedge-1700000000", some "ONGOING"⟩

/-- Our order, settled. -/
def recSettled : DualOrderRecord := ⟨some "dual-hedge-1700000000", some "SETTLEMENT_SUCCESS"⟩

/-- C4: whatever the scripted responses, `wait_for_dual_settlement` only
returns a record that carries its own correlation tag and the terminal
`SETTLEMENT_SUCCESS` status — it never returns on a missing order or a
non-terminal status; and on the script [not-found, pending, pending,
settled] it returns the settled record after exactly 4 polls. -/
theorem awaitSettlement_sound :
    (∀ (tag : String) (script : List (List DualOrderRecord)) (o : DualOrderRecord) (n : ℕ),
      wait_for_dual_settlement tag script = some (o, n) →
      o.text = some tag ∧ o.status = some "SETTLEMENT_SUCCESS") ∧
    wait_for_dual_settlement "dual-hedge-1700000000"
        [[recOther], [recPending], [recPending], [recSettled]] =
      some (recSettled, 4) := by
  constructor
  · intro tag script
    induction script with
    | nil =>
      intro o n h
      simp [wait_for_dual_settlement] at h
    | cons orders rest ih =>
      intro o n h
      rw [wait_for_dual_settlement] at h
      split at h
      · cases hw : wait_for_dual_settlement tag rest with
        | none => rw [hw] at h; simp at h
        | some r =>
          rw [hw] at h
          obtain ⟨r1, r2⟩ := r
          injection h with h'
          injection h' with ha hb
          subst ha
          exact ih r1 r2 hw
      · next target hf =>
          split at h
          · next hs =>
              injection h with h'
              injection h' with ha hb
              subst ha
              have ht := List.find?_some hf
              simp only [decide_eq_true_eq] at ht
              exact ⟨ht, hs⟩
          · cases hw : wait_for_dual_settlement tag rest with
            | none => rw [hw] at h; simp at h
            | some r =>
              rw [hw] at h
              obtain ⟨r1, r2⟩ := r
              injection h with h'
              injection h' with ha hb
              subst ha
              exact ih r1 r2 hw
  · decide

/-- Witness for `awaitSettlement_sound` at the scripted 4-poll run. -/
theorem awaitSettlement_sound_witness :
    recSettled.text = some "dual-hedge-1700000000" ∧
    recSettled.status = some "SETTLEMENT_SUCCESS" :=
  awaitSettlement_sound.1 "dual-hedge-1700000000"
    [[recOther], [recPending], [recPending], [recSettled]] recSettled 4 (by decide)

/-! ### C5 -/

theorem mainRun_shape (plans : List Offer) (now : ℤ) (amount_usdt hedge_multiplier : ℚ)
    (contracts : List ContractInfo) (futContract tickerLast : String)
    (confirm : Bool) (t_submit : ℤ) (dualPostOk : Bool) :
    mainRun plans now amount_usdt hedge_multiplier contracts futContract tickerLast
        confirm t_submit dualPostOk = [] ∨
    (∃ b, mainRun plans now amount_usdt hedge_multiplier contracts futContract tickerLast
        confirm t_submit dualPostOk = [.investOrder b]) ∨
    (∃ b h, mainRun plans now amount_usdt hedge_multiplier contracts futContract tickerLast
        confirm t_submit dualPostOk = [.investOrder b, .hedgeOrder h]) := by
  unfold mainRun
  dsimp only
  repeat' split
  all_goals first
    | exact Or.inl rfl
    | exact Or.inr (Or.inl ⟨_, rfl⟩)
    | exact Or.inr (Or.inr ⟨_, _, rfl⟩)

/-- C5: in every run of `main`, a hedge (futures short) order appearing at
position `j` of the submission trace is preceded by the investment (dual)
order at an earlier position: the investment order is always submitted
first, and a hedge order is never submitted before it. -/
theorem invest_before_hedge (plans : List Offer) (now : ℤ)
    (amount_usdt hedge_multiplier : ℚ) (contracts : List ContractInfo)
    (futContract tickerLast : String) (confirm : Bool) (t_submit : ℤ) (dualPostOk : Bool)
    (j : ℕ) (hb : FuturesOrderBody)
    (hj : (mainRun plans now amount_usdt hedge_multiplier contracts futContract tickerLast
        confirm t_submit dualPostOk)[j]? = some (.hedgeOrder hb)) :
    ∃ (i : ℕ) (db : DualOrderBody), i < j ∧
      (mainRun plans now amount_usdt hedge_multiplier contracts futContract tickerLast
        confirm t_submit dualPostOk)[i]? = some (.investOrder db) := by
  rcases mainRun_shape plans now amount_usdt hedge_multiplier contracts futContract
      tickerLast confirm t_submit dualPostOk with h | ⟨b, h⟩ | ⟨b, hB, h⟩
  · rw [h] at hj
    simp at hj
  · rw [h] at hj
    rcases j with _ | j
    · simp at hj
    · simp at hj
  · rw [h] at hj
    rcases j with _ | _ | j
    · simp at hj
    · exact ⟨0, b, by omega, by rw [h]; rfl⟩
    · simp at hj

/-- Witness for `invest_before_hedge`: in the end-to-end run the hedge order
sits at position 1 and the investment order indeed precedes it. -/
theorem invest_before_hedge_witness :
    ∃ (i : ℕ) (db : DualOrderBody), i < 1 ∧
      (mainRun [offerA] 0 1000 1 [metaNone] "ETH_USDT" "2345.6" true 1700000000 true)[i]? =
        some (.investOrder db) :=
  invest_before_hedge [offerA] 0 1000 1 [metaNone] "ETH_USDT" "2345.6" true 1700000000 true
    1 ⟨"ETH_USDT", -1000, 0, "ioc", "dual-hedge-short", false⟩ (by decide)

/-! ### C7 -/

/-- C7: `open_futures_short` always posts signed size `-|size|` with
time-in-force `"ioc"`; and in the end-to-end scenario (amount 1000, one
eligible offer at 9% expiring in 23 hours, multiplier absent) the computed
contract size is 1000 and the hedge order is submitted with size `-1000`
right after the investment order for amount 1000. -/
theorem hedge_short_ioc :
    (∀ (c : String) (s : ℤ) (r : Bool),
      (open_futures_short c s r).size = -|s| ∧ (open_futures_short c s r).tif = "ioc") ∧
    mainRun [offerA] 0 1000 1 [metaNone] "ETH_USDT" "2345.6" true 1700000000 true =
      [.investOrder ⟨"p1", 1000, "dual-hedge-1700000000"⟩,
       .hedgeOrder ⟨"ETH_USDT", -1000, 0, "ioc", "dual-hedge-short", false⟩] := by
  constructor
  · intro c s r
    constructor
    · show -(s.natAbs : ℤ) = -|s|
      rw [Int.abs_eq_natAbs]
    · rfl
  · decide

/-! ### C8 -/

/-- C8: two distinct runs (they submit different amounts) that reach the
submission step in the same unix second 1700000000 generate the same
correlation tag `"dual-hedge-1700000000"`: tag generation depends only on
`int(time.time())` and is not injective across concurrent runs. -/
theorem correlation_tag_collision :
    ∃ b1 b2 : DualOrderBody,
      (mainRun [offerA] 0 100 1 [metaNone] "ETH_USDT" "2345.6" true 1700000000 true)[0]? =
        some (.investOrder b1) ∧
      (mainRun [offerA] 0 200 1 [metaNone] "ETH_USDT" "2345.6" true 1700000000 true)[0]? =
        some (.investOrder b2) ∧
      b1.amount ≠ b2.amount ∧ b1.text = b2.text ∧ b1.text = genTag 1700000000 :=
  ⟨⟨"p1", 100, "dual-hedge-1700000000"⟩, ⟨"p1", 200, "dual-hedge-1700000000"⟩,
    by decide, by decide, by decide, by decide, by decide⟩
